import Mathlib

/-!
Shallow embedding of the core logic of the obsidian-list-modified plugin
(src/src/main.ts) and proofs about the claims of its specification.

Conventions used throughout:
* JavaScript strings are modelled as Lean `String` (a wrapper around
  `List Char`); the JS string operations the plugin relies on
  (`String.prototype.replace` with a string pattern, `split(",")`,
  `includes`, `toLowerCase`, `parseInt`) are re-implemented below with
  their JS semantics (first-occurrence replacement, empty split groups,
  substring containment, per-character lowering, leading-integer parse).
* The Obsidian host is an external collaborator: file resolution is a
  function `String → Option FileInfo`, generated markdown links,
  formatted creation dates and heading positions arrive as data.
* `Array.prototype.remove` (an Obsidian helper) is modelled as
  `List.erase` (removal of the first occurrence); on duplicate-free
  lists — the only lists the plugin's own documentation allows — every
  removal convention coincides with it.
* Fallible / aborting paths (a notice followed by an early return, or a
  thrown exception that skips the document write) are modelled with
  `Option`: `none` means "no document write happened".
-/

namespace ListModified

/-- Accumulator-style decimal digit evaluation, used by the model of the
JS `parseInt` call in `onload` (src/src/main.ts:38-40). -/
def digitsToNat : List Char → Nat → Nat
  | [], acc => acc
  | c :: r, acc => digitsToNat r (acc * 10 + (c.toNat - 48))

/-- Optional leading sign of a JS integer literal. -/
def parseIntSign : List Char → Bool × List Char
  | '-' :: r => (true, r)
  | '+' :: r => (false, r)
  | r => (false, r)

/-- Model of JS `parseInt(s, 10)`: skip leading whitespace, optional
sign, then the longest run of decimal digits; `none` models `NaN`
(no digits at all).  Trailing garbage is ignored, as in JS. -/
def parseIntJS (s : String) : Option Int :=
  let cs := s.data.dropWhile Char.isWhitespace
  let sign := parseIntSign cs
  let ds := sign.2.takeWhile Char.isDigit
  if ds = [] then none
  else
    let v : Int := Int.ofNat (digitsToNat ds 0)
    some (if sign.1 then -v else v)

/-- Substring occurrence test on character lists; models JS
`String.prototype.includes` and is also used to state when a
placeholder token occurs in a template. -/
def occursIn (pat : List Char) : List Char → Bool
  | [] => pat.isPrefixOf []
  | c :: rest => pat.isPrefixOf (c :: rest) || occursIn pat rest

/-- First-occurrence replacement on character lists; models JS
`String.prototype.replace` when called with a *string* pattern, which
replaces only the first occurrence (src/src/main.ts:258-273). -/
def replaceFirstL (pat rep : List Char) : List Char → List Char
  | [] => if pat.isPrefixOf ([] : List Char) then rep else []
  | c :: rest =>
    if pat.isPrefixOf (c :: rest) then rep ++ (c :: rest).drop pat.length
    else c :: replaceFirstL pat rep rest

/-- String wrapper around `replaceFirstL`. -/
def replaceFirst (s pat rep : String) : String :=
  ⟨replaceFirstL pat.data rep.data s.data⟩

/-- Model of JS `split(",")` : splitting the empty string yields a
single empty group, exactly as `"".split(",") = [""]` in JS. -/
def splitOnComma : List Char → List (List Char)
  | [] => [[]]
  | c :: rest =>
    let r := splitOnComma rest
    if c = ',' then [] :: r
    else
      match r with
      | [] => [[c]]
      | g :: gs => (c :: g) :: gs

/-- Model of JS `array.join(", ")` used for the tag list in
`getFormattedOutput` (src/src/main.ts:268-272). -/
def joinWithCommaSpace : List String → String
  | [] => ""
  | [t] => t
  | t :: rest => t ++ ", " ++ joinWithCommaSpace rest

/-- Embedding of `noteTitleContainsIgnoredText` (src/src/main.ts:105-113):
strip all whitespace from the setting, split on commas, and test each
entry for case-insensitive substring containment in the note title.
`Char.toLower` models JS `toLowerCase` (faithful on ASCII titles). -/
def noteTitleContainsIgnoredText (ignoredNameContains noteTitle : String) : Bool :=
  let ignoredText :=
    splitOnComma (ignoredNameContains.data.filter (fun c => !c.isWhitespace))
  ignoredText.any (fun ig =>
    occursIn (ig.map Char.toLower) (noteTitle.data.map Char.toLower))

/-- The slice of the persisted settings that `onCacheChange` mutates. -/
structure CacheState where
  trackedFiles : List String
  lastTrackedDate : String
  deriving DecidableEq

/-- Embedding of the `onCacheChange` handler (src/src/main.ts:66-103).

The three filter predicates and the daily-note comparison are computed
by the source from the file's cache, path and basename; they are passed
here as booleans (`hasIgnoredTag`, `excluded`, `titleIgnored`,
`isDailyNote`).

Faithful aliasing detail: the source first captures
`const trackedFiles = this.settings.trackedFiles` (line 68) and only
then, on a date rollover, assigns a *fresh empty array* to
`this.settings.trackedFiles` (line 72).  All pushes and removals
(lines 89 and 98) act on the captured pre-rollover array, so after a
rollover the settings keep the fresh empty array no matter what the
membership update did.  The result below is therefore `[]` whenever a
rollover occurred. -/
def onCacheChange (s : CacheState) (currentDate path : String)
    (isDailyNote hasIgnoredTag excluded titleIgnored : Bool) : CacheState :=
  let newDate := if s.lastTrackedDate ≠ currentDate then currentDate else s.lastTrackedDate
  if isDailyNote = true then
    ⟨if s.lastTrackedDate ≠ currentDate then [] else s.trackedFiles, newDate⟩
  else
    let t0 := s.trackedFiles
    let t1 :=
      if path ∉ t0 ∧ hasIgnoredTag = false ∧ excluded = false ∧ titleIgnored = false then
        t0 ++ [path]
      else t0
    let t2 :=
      if (path ∈ t1 ∧ hasIgnoredTag = true) ∨ excluded = true ∨ titleIgnored = true then
        t1.erase path
      else t1
    ⟨if s.lastTrackedDate ≠ currentDate then [] else t2, newDate⟩

/-- Embedding of the `onVaultDelete` handler (src/src/main.ts:139-146),
restricted to the `TFile` branch. -/
def onVaultDelete (trackedFiles : List String) (path : String) : List String :=
  if path ∈ trackedFiles then trackedFiles.erase path else trackedFiles

/-- Embedding of the `onVaultRename` handler (src/src/main.ts:148-163),
restricted to the `TFile` branch: if the old path was tracked, remove
it and push the new path at the end of the list. -/
def onVaultRename (trackedFiles : List String) (oldPath newPath : String) : List String :=
  if oldPath ∈ trackedFiles then trackedFiles.erase oldPath ++ [newPath]
  else trackedFiles

/-- Heading metadata delivered by the host.  `startLine` and `endLine`
flatten `position.start.line` and `position.end.line` of Obsidian's
`HeadingCache`. -/
structure HeadingCache where
  heading : String
  startLine : Nat
  endLine : Nat
  deriving DecidableEq

/-- Model of JS `Array.prototype.splice(start, deleteCount, ...items)`
on a list of lines.  `Nat` subtraction in the callers truncates a
negative `deleteCount` to `0` and `take`/`drop` clamp an out-of-range
`start`, both exactly as JS does. -/
def jsSplice (content : List String) (start deleteCount : Nat)
    (items : List String) : List String :=
  content.take start ++ items ++ content.drop (start + deleteCount)

/-- Embedding of the heading-search-and-splice loop of
`updateTrackedFiles` (src/src/main.ts:221-248), parameterised by the
already-rendered entries.  The first heading whose text equals the
configured heading wins; the replaced range starts right after its end
line and stops at `next.startLine - 1`, or at the end of the document
when no later heading exists.  `none` models the "heading not found"
notice (line 250) with no write. -/
def spliceContent (headingSetting : String) (entries : List String)
    (content : List String) : List HeadingCache → Option (List String)
  | [] => none
  | h :: rest =>
    if h.heading = headingSetting then
      let startPos := h.endLine + 1
      let endPos :=
        match rest with
        | [] => content.length
        | h2 :: _ => h2.startLine - 1
      some (jsSplice content startPos (endPos - startPos) entries)
    else spliceContent headingSetting entries content rest

/-- Embedding of the guard and loop of `updateTrackedFiles`
(src/src/main.ts:205-253): `headings = none` models a cache without
heading metadata and an empty `headingSetting` models a missing
configured heading (`!headings || !this.settings.heading`, line 214);
both produce a notice and no write, modelled as `none`. -/
def updateContent (headings : Option (List HeadingCache)) (headingSetting : String)
    (content entries : List String) : Option (List String) :=
  match headings with
  | none => none
  | some hs =>
    if headingSetting = "" then none
    else spliceContent headingSetting entries content hs

/-- The document as it stands after `updateTrackedFiles` ran: the
spliced content if a write happened, the untouched original otherwise. -/
def finalDocument (headings : Option (List HeadingCache)) (headingSetting : String)
    (content entries : List String) : List String :=
  (updateContent headings headingSetting content entries).getD content

/-- The host-provided data about one resolvable file that
`getFormattedOutput` consumes: base name, the markdown link generated
by the host relative to the daily note, the tag list, and the
`YYYY-MM-DD`-formatted creation time. -/
structure FileInfo where
  basename : String
  link : String
  tags : List String
  ctimeFormatted : String
  deriving DecidableEq

/-- Embedding of `getFormattedOutput` (src/src/main.ts:256-274).  A path
that no longer resolves (`getAbstractFileByPath` returns `null`) makes
the source throw on the first property access of the null file; this is
modelled as `none`.  Each of the four placeholder substitutions is a JS
string-pattern `replace`, i.e. a first-occurrence replacement. -/
def getFormattedOutput (vault : String → Option FileInfo)
    (outputFormat path : String) : Option String :=
  match vault path with
  | none => none
  | some file =>
    some (replaceFirst
      (replaceFirst
        (replaceFirst
          (replaceFirst outputFormat "[[link]]" file.link)
          "[[name]]" file.basename)
        "[[tags]]" (joinWithCommaSpace (file.tags.map (fun t => "\x5c" ++ t))))
      "[[ctime]]" file.ctimeFormatted)

/-- The evaluation of `this.settings.trackedFiles.map(getFormattedOutput)`
(src/src/main.ts:230-232): JS evaluates the callback left to right and a
throw aborts the whole `map`, so one unresolvable path yields `none`. -/
def renderEntries (vault : String → Option FileInfo) (outputFormat : String) :
    List String → Option (List String)
  | [] => some []
  | p :: rest =>
    match getFormattedOutput vault outputFormat p with
    | none => none
    | some s =>
      match renderEntries vault outputFormat rest with
      | none => none
      | some ss => some (s :: ss)

/-- The heading loop of `updateTrackedFiles` with the rendering of the
tracked paths inlined at its source position: entries are only rendered
once a matching heading was found, and a rendering failure (thrown
exception) aborts before the splice and the write. -/
def spliceRender (vault : String → Option FileInfo) (outputFormat : String)
    (headingSetting : String) (trackedFiles : List String)
    (content : List String) : List HeadingCache → Option (List String)
  | [] => none
  | h :: rest =>
    if h.heading = headingSetting then
      match renderEntries vault outputFormat trackedFiles with
      | none => none
      | some entries =>
        let startPos := h.endLine + 1
        let endPos :=
          match rest with
          | [] => content.length
          | h2 :: _ => h2.startLine - 1
        some (jsSplice content startPos (endPos - startPos) entries)
    else spliceRender vault outputFormat headingSetting trackedFiles content rest

/-- Full document-write portion of `updateTrackedFiles`
(src/src/main.ts:205-253) with rendering included; `none` means
`vault.modify` was never reached (notice or thrown exception). -/
def updateTrackedFilesWrite (vault : String → Option FileInfo) (outputFormat : String)
    (headings : Option (List HeadingCache)) (headingSetting : String)
    (content trackedFiles : List String) : Option (List String) :=
  match headings with
  | none => none
  | some hs =>
    if headingSetting = "" then none
    else spliceRender vault outputFormat headingSetting trackedFiles content hs

/-- The daily note's content after `updateTrackedFiles`: changed only
when `vault.modify` was reached. -/
def finalWriteDocument (vault : String → Option FileInfo) (outputFormat : String)
    (headings : Option (List HeadingCache)) (headingSetting : String)
    (content trackedFiles : List String) : List String :=
  (updateTrackedFilesWrite vault outputFormat headings headingSetting
    content trackedFiles).getD content

/-- Embedding of the backup / auto-create parts of `updateTrackedFiles`
(src/src/main.ts:179-203): the backup path is the daily-note folder
setting, the formatted date and the literal suffix concatenated
directly (no path separator, no note extension, line 180-183).  A
backup is copied only when the daily note resolved and the one-time
flag is still unset; afterwards the flag is `true`.  When the note did
not resolve and auto-creation is on, the daily note itself (a file at
the host-determined `dailyNotePath`) is created instead.  Returns the
list of files created by this run and the new flag. -/
def updateTrackedFilesBackup (hasBeenBackedUp resolves autoCreate : Bool)
    (folder dateFormatted dailyNotePath : String) : List String × Bool :=
  let backupPath := folder ++ dateFormatted ++ "-BACKUP.md"
  let created1 : List String :=
    if resolves = true ∧ hasBeenBackedUp = false then [backupPath] else []
  let flag := if resolves = true ∧ hasBeenBackedUp = false then true else hasBeenBackedUp
  let created2 : List String :=
    if resolves = false ∧ autoCreate = true then [dailyNotePath] else []
  (created1 ++ created2, flag)

/-- A sequence of `updateTrackedFiles` runs, each described by whether
the daily note resolved and whether auto-creation is enabled; collects
every file created across the runs and threads the one-time flag. -/
def backupRuns (folder dateFormatted dailyNotePath : String) (flag : Bool) :
    List (Bool × Bool) → List String × Bool
  | [] => ([], flag)
  | (resolves, autoCreate) :: rest =>
    let step := updateTrackedFilesBackup flag resolves autoCreate
      folder dateFormatted dailyNotePath
    let restRun := backupRuns folder dateFormatted dailyNotePath step.2 rest
    (step.1 ++ restRun.1, restRun.2)

/-- Observable outcome of the interval setup in `onload`
(src/src/main.ts:31-54): the effective interval seconds (`none` models
`NaN`), whether the invalid-interval notice was shown, and whether
`registerInterval` was called. -/
structure OnloadResult where
  writeIntervalSec : Option Int
  invalidNotice : Bool
  intervalRegistered : Bool
  deriving DecidableEq

/-- Embedding of the write-interval validation in `onload`
(src/src/main.ts:31-54): the zod schema `preprocess(parseInt, number().positive())`
accepts exactly the strings whose leading integer parse is positive; on
failure the code shows a notice and falls back to
`parseInt(DEFAULT_SETTINGS.writeInterval)`.  `registerInterval` is
called unconditionally (line 49-54). -/
def onload (writeInterval defaultWriteInterval : String) : OnloadResult :=
  match parseIntJS writeInterval with
  | some n =>
    if 0 < n then ⟨some n, false, true⟩
    else ⟨parseIntJS defaultWriteInterval, true, true⟩
  | none => ⟨parseIntJS defaultWriteInterval, true, true⟩

/-- A concrete vault used in closed statements: exactly one file,
`a.md`, resolves. -/
def demoVault : String → Option FileInfo := fun p =>
  if p = "a.md" then some ⟨"A", "L", [], "2026-01-01"⟩ else none

theorem spliceContent_none_of_no_match (headingSetting : String)
    (entries content : List String) :
    ∀ hs : List HeadingCache, (∀ h ∈ hs, h.heading ≠ headingSetting) →
      spliceContent headingSetting entries content hs = none := by
  intro hs
  induction hs with
  | nil => intro _; rfl
  | cons h rest ih =>
    intro hall
    have hne : h.heading ≠ headingSetting := hall h (List.mem_cons_self h rest)
    simp only [spliceContent, if_neg hne]
    exact ih fun h2 h2m => hall h2 (List.mem_cons_of_mem h h2m)

/-- C1.  The claim's round-trip formula fails on the code: with a next
heading, `updateTrackedFiles` sets `endPos` to `next.position.start.line - 1`
(src/src/main.ts:225-226), so the line immediately before the next
heading survives the splice.  Concretely, for the document
`["# H", "x", "# H2"]` with its two headings and one rendered entry,
the output keeps `"x"` (4 lines in total) instead of the claimed
`["# H", "e", "# H2"]` (3 = 3 − 1 + 1 lines). -/
theorem updateContent_keeps_line_before_next_heading :
    updateContent (some [⟨"H", 0, 0⟩, ⟨"H2", 2, 2⟩]) "H" ["# H", "x", "# H2"] ["e"]
      = some ["# H", "e", "x", "# H2"] ∧
    updateContent (some [⟨"H", 0, 0⟩, ⟨"H2", 2, 2⟩]) "H" ["# H", "x", "# H2"] ["e"]
      ≠ some ["# H", "e", "# H2"] := by decide

/-- C1 (amended).  Splicing with `M` rendered entries when the matched
heading (end line `e1`) is followed by a next heading (start line `s2`)
replaces exactly the line range `[e1 + 1, s2 − 1)`: the output is all
lines up to and including the matched heading's end line, then the `M`
entries, then the lines from `s2 − 1` on — i.e. the line immediately
before the next heading is preserved together with everything from the
next heading onward, and the total line count is
`original − (N − 1) + M` where `N = s2 − (e1 + 1)` is the number of
lines strictly between the two headings.  When no subsequent heading
exists the replaced range extends to the end of the document, exactly
as claimed. -/
theorem updateContent_splice_shape :
    (∀ (headingSetting h2name : String) (s1 e1 s2 e2 : Nat)
        (content entries : List String),
      headingSetting ≠ "" → e1 + 1 ≤ s2 - 1 → s2 - 1 ≤ content.length →
        updateContent (some [⟨headingSetting, s1, e1⟩, ⟨h2name, s2, e2⟩])
            headingSetting content entries
          = some (content.take (e1 + 1) ++ entries ++ content.drop (s2 - 1)) ∧
        (finalDocument (some [⟨headingSetting, s1, e1⟩, ⟨h2name, s2, e2⟩])
            headingSetting content entries).length
          = content.length + entries.length - ((s2 - 1) - (e1 + 1))) ∧
    (∀ (headingSetting : String) (s1 e1 : Nat) (content entries : List String),
      headingSetting ≠ "" →
        updateContent (some [⟨headingSetting, s1, e1⟩]) headingSetting content entries
          = some (content.take (e1 + 1) ++ entries)) := by
  constructor
  · intro headingSetting h2name s1 e1 s2 e2 content entries hne hle hlen
    have hsome :
        updateContent (some [⟨headingSetting, s1, e1⟩, ⟨h2name, s2, e2⟩])
            headingSetting content entries
          = some (content.take (e1 + 1) ++ entries ++ content.drop (s2 - 1)) := by
      simp only [updateContent, if_neg hne, spliceContent, if_pos rfl, jsSplice]
      rw [Nat.add_sub_cancel' hle]
      simp
    refine ⟨hsome, ?_⟩
    rw [finalDocument, hsome]
    simp only [Option.getD_some, List.length_append, List.length_take, List.length_drop]
    omega
  · intro headingSetting s1 e1 content entries hne
    simp only [updateContent, if_neg hne, spliceContent, if_pos rfl, jsSplice]
    have hdrop : content.drop (e1 + 1 + (content.length - (e1 + 1))) = [] := by
      apply List.drop_eq_nil_of_le
      omega
    rw [hdrop, List.append_nil]
    simp

/-- Closed instance of the amended C1 theorem: both hypotheses hold at
a 4-line document whose managed region holds two lines, and the splice
keeps the line before the second heading. -/
theorem updateContent_splice_shape_witness :
    ("H" : String) ≠ "" ∧ 0 + 1 ≤ 3 - 1 ∧
    3 - 1 ≤ (["# H", "a", "b", "# H2"] : List String).length ∧
    updateContent (some [⟨"H", 0, 0⟩, ⟨"H2", 3, 3⟩]) "H"
        ["# H", "a", "b", "# H2"] ["e1", "e2"]
      = some ((["# H", "a", "b", "# H2"] : List String).take (0 + 1) ++ ["e1", "e2"]
          ++ (["# H", "a", "b", "# H2"] : List String).drop (3 - 1)) ∧
    updateContent (some [⟨"H", 0, 0⟩]) "H" ["# H", "a", "b"] ["e1"]
      = some ((["# H", "a", "b"] : List String).take (0 + 1) ++ ["e1"]) :=
  ⟨by decide, by decide, by decide,
    (updateContent_splice_shape.1 "H" "H2" 0 0 3 3 ["# H", "a", "b", "# H2"] ["e1", "e2"]
      (by decide) (by decide) (by decide)).1,
    updateContent_splice_shape.2 "H" 0 0 ["# H", "a", "b"] ["e1"] (by decide)⟩

/-- C7.  When the heading metadata is unavailable, or no heading is
configured, or no heading in the index matches the configured heading
exactly, `updateTrackedFiles` performs no write: the result is `none`
(the source shows a notice and returns, src/src/main.ts:214-219 and
250-252) and the document is left unchanged. -/
theorem updateContent_missing_heading_no_write :
    (∀ (headingSetting : String) (content entries : List String),
      updateContent none headingSetting content entries = none ∧
      finalDocument none headingSetting content entries = content) ∧
    (∀ (hs : List HeadingCache) (content entries : List String),
      updateContent (some hs) "" content entries = none ∧
      finalDocument (some hs) "" content entries = content) ∧
    (∀ (hs : List HeadingCache) (headingSetting : String)
        (content entries : List String),
      (∀ h ∈ hs, h.heading ≠ headingSetting) →
        updateContent (some hs) headingSetting content entries = none ∧
        finalDocument (some hs) headingSetting content entries = content) := by
  refine ⟨fun headingSetting content entries => ⟨rfl, rfl⟩,
    fun hs content entries => ⟨by simp [updateContent], ?_⟩, ?_⟩
  · simp [finalDocument, updateContent]
  · intro hs headingSetting content entries hall
    by_cases hempty : headingSetting = ""
    · subst hempty
      exact ⟨by simp [updateContent], by simp [finalDocument, updateContent]⟩
    · have hnone := spliceContent_none_of_no_match headingSetting entries content hs hall
      constructor
      · simp [updateContent, if_neg hempty, hnone]
      · simp [finalDocument, updateContent, if_neg hempty, hnone]

/-- Closed instance of the C7 theorem: a one-heading index without an
exact match for the configured heading yields no write and an unchanged
document. -/
theorem updateContent_missing_heading_no_write_witness :
    ((∀ h ∈ ([⟨"Other", 0, 0⟩] : List HeadingCache), h.heading ≠ "Modified") ∧
      updateContent (some [⟨"Other", 0, 0⟩]) "Modified" ["x", "y"] ["e"] = none ∧
      finalDocument (some [⟨"Other", 0, 0⟩]) "Modified" ["x", "y"] ["e"] = ["x", "y"]) ∧
    updateContent none "Modified" ["x"] ["e"] = none ∧
    updateContent (some [⟨"Modified", 0, 0⟩]) "" ["x"] ["e"] = none :=
  ⟨⟨by decide,
    updateContent_missing_heading_no_write.2.2 [⟨"Other", 0, 0⟩] "Modified" ["x", "y"] ["e"]
      (by decide)⟩,
    (updateContent_missing_heading_no_write.1 "Modified" ["x"] ["e"]).1,
    (updateContent_missing_heading_no_write.2.1 [⟨"Modified", 0, 0⟩] ["x"] ["e"]).1⟩

/-- C9.  If `oldPath` is tracked (and the tracked list is duplicate-free,
as the plugin's data model prescribes), `onVaultRename` removes it and
appends `newPath` at the end of the list — not at `oldPath`'s original
position — preserving the list's length; if `oldPath` is not tracked
the list is unchanged. -/
theorem onVaultRename_moves_to_end :
    ∀ (trackedFiles : List String) (oldPath newPath : String),
      (oldPath ∈ trackedFiles → trackedFiles.Nodup →
        onVaultRename trackedFiles oldPath newPath
          = trackedFiles.erase oldPath ++ [newPath] ∧
        (onVaultRename trackedFiles oldPath newPath).length = trackedFiles.length) ∧
      (oldPath ∉ trackedFiles →
        onVaultRename trackedFiles oldPath newPath = trackedFiles) := by
  intro trackedFiles oldPath newPath
  constructor
  · intro hmem _
    have heq : onVaultRename trackedFiles oldPath newPath
        = trackedFiles.erase oldPath ++ [newPath] := by
      simp [onVaultRename, hmem]
    refine ⟨heq, ?_⟩
    rw [heq]
    have hlen := List.length_erase_of_mem hmem
    have hpos := List.length_pos_of_mem hmem
    simp only [List.length_append, List.length_cons, List.length_nil, hlen]
    omega
  · intro hnot
    simp [onVaultRename, hnot]

/-- Closed instance of the C9 theorem: renaming the first of two
tracked paths moves it to the end, keeping the length at two; renaming
an untracked path changes nothing. -/
theorem onVaultRename_moves_to_end_witness :
    ("x.md" : String) ∈ (["x.md", "y.md"] : List String) ∧
    (["x.md", "y.md"] : List String).Nodup ∧
    onVaultRename ["x.md", "y.md"] "x.md" "z.md"
      = (["x.md", "y.md"] : List String).erase "x.md" ++ ["z.md"] ∧
    (onVaultRename ["x.md", "y.md"] "x.md" "z.md").length
      = (["x.md", "y.md"] : List String).length ∧
    onVaultRename ["x.md"] "q.md" "r.md" = ["x.md"] :=
  ⟨by decide, by decide,
    ((onVaultRename_moves_to_end ["x.md", "y.md"] "x.md" "z.md").1
      (by decide) (by decide)).1,
    ((onVaultRename_moves_to_end ["x.md", "y.md"] "x.md" "z.md").1
      (by decide) (by decide)).2,
    (onVaultRename_moves_to_end ["x.md"] "q.md" "r.md").2 (by decide)⟩

/-- C2.  Evaluation of `onCacheChange` at the failing input: the stored
date is `2026-10-10`, the current date `2026-10-11`, yesterday's
tracked list is `["old.md"]` and the changed file `new.md` is trackable
(not the daily note, no ignored tag, not excluded, title not ignored).
The rollover replaces `this.settings.trackedFiles` with a fresh empty
array (src/src/main.ts:72) while the membership update keeps pushing to
the stale array captured at line 68, so the settings end up with `[]`
instead of the claimed `["new.md"]`: the changed file is silently lost
on every first modification of a new day. -/
theorem onCacheChange_rollover_drops_changed_file :
    onCacheChange ⟨["old.md"], "2026-10-10"⟩ "2026-10-11" "new.md" false false false false
      = ⟨[], "2026-10-11"⟩ ∧
    (onCacheChange ⟨["old.md"], "2026-10-10"⟩ "2026-10-11" "new.md"
        false false false false).trackedFiles ≠ ["new.md"] := by decide

/-- C6.  Evaluation of `onload` at the failing input `"0"`: the zod
schema rejects `0` (`positive()` requires `> 0`), so the notice is
shown and the interval falls back to the parse of the built-in default
— and `registerInterval` is still called (src/src/main.ts:49-54),
contradicting both the claim and the code's own comment at line 36
that an interval of 0 should not register the periodic trigger. -/
theorem onload_registers_interval_for_zero :
    ∀ defaultWriteInterval : String,
      onload "0" defaultWriteInterval
        = ⟨parseIntJS defaultWriteInterval, true, true⟩ := by
  intro d
  have h : parseIntJS "0" = some 0 := rfl
  simp [onload, h]

/-- C8.  A rename whose new path is already tracked breaks the
no-duplicates invariant: starting from the duplicate-free tracked list
`["a.md", "b.md"]` (reachable when `b.md` went stale, e.g. after its
parent folder was renamed — `onVaultRename` ignores folder renames),
renaming `a.md` to `b.md` yields `["b.md", "b.md"]`. -/
theorem onVaultRename_can_duplicate :
    (["a.md", "b.md"] : List String).Nodup ∧
    onVaultRename ["a.md", "b.md"] "a.md" "b.md" = ["b.md", "b.md"] ∧
    ¬ (onVaultRename ["a.md", "b.md"] "a.md" "b.md").Nodup := by decide

/-- C8 (amended).  The tracked list stays duplicate-free under
`onCacheChange` and `onVaultDelete`; `onVaultRename` preserves
duplicate-freedom provided the new path is not already tracked (or
coincides with the old one); and evaluating the same trackable file
twice in succession with unchanged filter state and no date rollover
leaves exactly one occurrence of it in the list. -/
theorem tracked_set_nodup_preserved :
    (∀ (s : CacheState) (currentDate path : String)
        (isDailyNote hasIgnoredTag excluded titleIgnored : Bool),
      s.trackedFiles.Nodup →
        (onCacheChange s currentDate path
          isDailyNote hasIgnoredTag excluded titleIgnored).trackedFiles.Nodup) ∧
    (∀ (t : List String) (p : String), t.Nodup → (onVaultDelete t p).Nodup) ∧
    (∀ (t : List String) (o n : String), t.Nodup → n ∉ t ∨ n = o →
      (onVaultRename t o n).Nodup) ∧
    (∀ (s : CacheState) (currentDate p : String), s.trackedFiles.Nodup →
      s.lastTrackedDate = currentDate →
        (onCacheChange (onCacheChange s currentDate p false false false false)
          currentDate p false false false false).trackedFiles.count p = 1) := by
  have happ : ∀ (t : List String) (p : String), t.Nodup → p ∉ t → (t ++ [p]).Nodup := by
    intro t p hnd hp
    rw [← List.concat_eq_append]
    exact hnd.concat hp
  refine ⟨?_, ?_, ?_, ?_⟩
  · intro s cd p dn tag exc tit hnd
    simp only [onCacheChange]
    split_ifs with h1 h2 h3 h4 h5 h6 <;>
      first
        | exact List.nodup_nil
        | exact hnd
        | exact hnd.erase p
        | (first
            | exact (happ s.trackedFiles p hnd (by tauto)).erase p
            | exact happ s.trackedFiles p hnd (by tauto))
  · intro t p hnd
    unfold onVaultDelete
    split_ifs with h
    · exact hnd.erase p
    · exact hnd
  · intro t o n hnd hn
    unfold onVaultRename
    split_ifs with h
    · refine happ (t.erase o) n (hnd.erase o) ?_
      rcases hn with hn | hn
      · exact fun hc => hn (List.mem_of_mem_erase hc)
      · subst hn
        exact hnd.not_mem_erase
    · exact hnd
  · intro s cd p hnd hd
    have hroll : ¬ s.lastTrackedDate ≠ cd := fun hc => hc hd
    by_cases hp : p ∈ s.trackedFiles
    · have h1 : onCacheChange s cd p false false false false = ⟨s.trackedFiles, cd⟩ := by
        simp [onCacheChange, hroll, hp, hd]
      rw [h1]
      have h2 : onCacheChange ⟨s.trackedFiles, cd⟩ cd p false false false false
          = ⟨s.trackedFiles, cd⟩ := by
        simp [onCacheChange, hp]
      rw [h2]
      exact List.count_eq_one_of_mem hnd hp
    · have h1 : onCacheChange s cd p false false false false
          = ⟨s.trackedFiles ++ [p], cd⟩ := by
        simp [onCacheChange, hroll, hp, hd]
      rw [h1]
      have hpmem : p ∈ s.trackedFiles ++ [p] := by simp
      have h2 : onCacheChange ⟨s.trackedFiles ++ [p], cd⟩ cd p false false false false
          = ⟨s.trackedFiles ++ [p], cd⟩ := by
        simp [onCacheChange, hpmem]
      rw [h2]
      have : (s.trackedFiles ++ [p]).count p = s.trackedFiles.count p + 1 := by
        simp [List.count_append]
      rw [this, List.count_eq_zero.2 hp]

/-- Closed instance of the amended C8 theorem: each conjunct applied at
a concrete duplicate-free list. -/
theorem tracked_set_nodup_preserved_witness :
    ((["x.md"] : List String).Nodup ∧
      (onCacheChange ⟨["x.md"], "2026-10-11"⟩ "2026-10-11" "y.md"
        false false false false).trackedFiles.Nodup) ∧
    (onVaultDelete ["x.md"] "x.md").Nodup ∧
    ((("z.md" : String) ∉ (["x.md"] : List String) ∨ ("z.md" : String) = "x.md") ∧
      (onVaultRename ["x.md"] "x.md" "z.md").Nodup) ∧
    (CacheState.lastTrackedDate ⟨["x.md"], "2026-10-11"⟩ = "2026-10-11" ∧
      (onCacheChange (onCacheChange ⟨["x.md"], "2026-10-11"⟩ "2026-10-11" "y.md"
          false false false false)
        "2026-10-11" "y.md" false false false false).trackedFiles.count "y.md" = 1) :=
  ⟨⟨by decide,
    tracked_set_nodup_preserved.1 ⟨["x.md"], "2026-10-11"⟩ "2026-10-11" "y.md"
      false false false false (by decide)⟩,
    tracked_set_nodup_preserved.2.1 ["x.md"] "x.md" (by decide),
    ⟨by decide,
      tracked_set_nodup_preserved.2.2.1 ["x.md"] "x.md" "z.md" (by decide) (by decide)⟩,
    ⟨by decide,
      tracked_set_nodup_preserved.2.2.2 ⟨["x.md"], "2026-10-11"⟩ "2026-10-11" "y.md"
        (by decide) (by decide)⟩⟩

theorem occursIn_nil (l : List Char) : occursIn [] l = true := by
  cases l with
  | nil => rfl
  | cons c r => simp [occursIn, List.isPrefixOf]

/-- C10.  The claim's consequence "removes any file it is invoked for"
fails for the current daily note: `onCacheChange` returns before the
membership update when the changed file is today's daily note
(src/src/main.ts:78-80), so a tracked path that has become the daily
note stays tracked even though the empty `ignoredNameContains` setting
makes the title filter match every title. -/
theorem onCacheChange_daily_note_not_removed :
    noteTitleContainsIgnoredText "" "d" = true ∧
    (onCacheChange ⟨["d.md"], "2026-10-11"⟩ "2026-10-11" "d.md" true false false
        (noteTitleContainsIgnoredText "" "d")).trackedFiles = ["d.md"] := by decide

/-- C10 (amended).  With an empty `ignoredNameContains` setting,
`noteTitleContainsIgnoredText` returns `true` for every title (the
comma split of the empty string yields one empty entry and every string
contains the empty substring); consequently `onCacheChange` never adds
any file to the tracked set, and removes every file it is invoked for
except the current daily note itself, for which it returns early
before the membership update. -/
theorem empty_ignored_text_blocks_tracking :
    (∀ noteTitle : String, noteTitleContainsIgnoredText "" noteTitle = true) ∧
    (∀ (s : CacheState) (currentDate path : String)
        (isDailyNote hasIgnoredTag excluded : Bool),
      (onCacheChange s currentDate path isDailyNote hasIgnoredTag excluded
        true).trackedFiles ⊆ s.trackedFiles) ∧
    (∀ (s : CacheState) (currentDate path : String) (hasIgnoredTag excluded : Bool),
      s.trackedFiles.Nodup →
        path ∉ (onCacheChange s currentDate path false hasIgnoredTag excluded
          true).trackedFiles) := by
  refine ⟨?_, ?_, ?_⟩
  · intro noteTitle
    unfold noteTitleContainsIgnoredText
    have h0 : splitOnComma (String.data "" |>.filter (fun c => !c.isWhitespace))
        = [[]] := rfl
    rw [h0]
    simp only [List.any_cons, List.any_nil, List.map_nil, Bool.or_false]
    exact occursIn_nil (noteTitle.data.map Char.toLower)
  · intro s cd p dn tag exc
    simp only [onCacheChange]
    split_ifs <;> simp_all [List.erase_subset]
  · intro s cd p tag exc hnd
    simp only [onCacheChange]
    split_ifs <;>
      first
        | exact hnd.not_mem_erase
        | simp_all

/-- Closed instance of the amended C10 theorem. -/
theorem empty_ignored_text_blocks_tracking_witness :
    noteTitleContainsIgnoredText "" "My Note" = true ∧
    (onCacheChange ⟨["a.md"], "2026-10-11"⟩ "2026-10-11" "b.md" false false false
        true).trackedFiles ⊆ (["a.md"] : List String) ∧
    ((["a.md", "b.md"] : List String).Nodup ∧
      "b.md" ∉ (onCacheChange ⟨["a.md", "b.md"], "2026-10-11"⟩ "2026-10-11" "b.md"
        false false false true).trackedFiles) :=
  ⟨empty_ignored_text_blocks_tracking.1 "My Note",
    empty_ignored_text_blocks_tracking.2.1 ⟨["a.md"], "2026-10-11"⟩ "2026-10-11" "b.md"
      false false false,
    ⟨by decide,
      empty_ignored_text_blocks_tracking.2.2 ⟨["a.md", "b.md"], "2026-10-11"⟩ "2026-10-11"
        "b.md" false false (by decide)⟩⟩

theorem replaceFirstL_of_not_occurs (pat rep : List Char) :
    ∀ s : List Char, occursIn pat s = false → replaceFirstL pat rep s = s := by
  intro s
  induction s with
  | nil =>
    intro h
    rw [occursIn] at h
    rw [replaceFirstL, if_neg (by simp [h])]
  | cons c rest ih =>
    intro h
    rw [occursIn, Bool.or_eq_false_iff] at h
    rw [replaceFirstL, if_neg (by simp [h.1]), ih h.2]

theorem replaceFirst_of_not_occurs (s pat rep : String)
    (h : occursIn pat.data s.data = false) : replaceFirst s pat rep = s := by
  unfold replaceFirst
  rw [replaceFirstL_of_not_occurs pat.data rep.data s.data h]

/-- C3.  JS `String.prototype.replace` with a string pattern replaces
only the first occurrence, so a template containing the same recognized
token twice keeps its second occurrence verbatim: with base name `A`,
the template `"[[name]] [[name]]"` renders to `"A [[name]]"`, not to
the claimed `"A A"` (src/src/main.ts:258-273). -/
theorem getFormattedOutput_second_occurrence_kept :
    getFormattedOutput demoVault "[[name]] [[name]]" "a.md" = some "A [[name]]" ∧
    getFormattedOutput demoVault "[[name]] [[name]]" "a.md" ≠ some "A A" := by decide

/-- C3 (amended).  For every tracked path resolving to an existing
file, `getFormattedOutput` substitutes only the *first* occurrence of
each of the four recognized placeholder tokens; a template containing
no recognized token at all — in particular one made of unrecognized
placeholder tokens — is returned verbatim, and a template with the
same recognized token twice has only its first occurrence substituted. -/
theorem getFormattedOutput_first_occurrence_only :
    (∀ (vault : String → Option FileInfo) (outputFormat path : String) (info : FileInfo),
      vault path = some info →
      occursIn ("[[link]]".data) outputFormat.data = false →
      occursIn ("[[name]]".data) outputFormat.data = false →
      occursIn ("[[tags]]".data) outputFormat.data = false →
      occursIn ("[[ctime]]".data) outputFormat.data = false →
        getFormattedOutput vault outputFormat path = some outputFormat) ∧
    getFormattedOutput demoVault "x [[name]] y [[name]]" "a.md" = some "x A y [[name]]" := by
  constructor
  · intro vault outputFormat path info hv h1 h2 h3 h4
    simp only [getFormattedOutput, hv]
    rw [replaceFirst_of_not_occurs _ _ _ h1, replaceFirst_of_not_occurs _ _ _ h2,
      replaceFirst_of_not_occurs _ _ _ h3, replaceFirst_of_not_occurs _ _ _ h4]
  · decide

/-- Closed instance of the amended C3 theorem: a template consisting
only of an unrecognized placeholder token is rendered verbatim. -/
theorem getFormattedOutput_first_occurrence_only_witness :
    demoVault "a.md" = some ⟨"A", "L", [], "2026-01-01"⟩ ∧
    occursIn ("[[name]]".data) ("hello [[foo]]".data) = false ∧
    getFormattedOutput demoVault "hello [[foo]]" "a.md" = some "hello [[foo]]" :=
  ⟨by decide, by decide,
    getFormattedOutput_first_occurrence_only.1 demoVault "hello [[foo]]" "a.md"
      ⟨"A", "L", [], "2026-01-01"⟩ (by decide) (by decide) (by decide) (by decide)
      (by decide)⟩

theorem renderEntries_none_of_stale (vault : String → Option FileInfo)
    (outputFormat : String) :
    ∀ (tracked : List String) (p : String), p ∈ tracked → vault p = none →
      renderEntries vault outputFormat tracked = none := by
  intro tracked
  induction tracked with
  | nil =>
    intro p hp
    exact absurd hp (List.not_mem_nil p)
  | cons q rest ih =>
    intro p hp hv
    rcases List.mem_cons.1 hp with h | h
    · subst h
      simp [renderEntries, getFormattedOutput, hv]
    · simp only [renderEntries]
      cases hq : getFormattedOutput vault outputFormat q with
      | none => rfl
      | some s => rw [ih p h hv]

theorem spliceRender_none_of_stale (vault : String → Option FileInfo)
    (outputFormat headingSetting : String) (tracked content : List String)
    (p : String) (hp : p ∈ tracked) (hv : vault p = none) :
    ∀ hs : List HeadingCache,
      spliceRender vault outputFormat headingSetting tracked content hs = none := by
  intro hs
  induction hs with
  | nil => rfl
  | cons h rest ih =>
    simp only [spliceRender]
    split_ifs with hh
    · rw [renderEntries_none_of_stale vault outputFormat tracked p hp hv]
    · exact ih

/-- C4.  A tracked path that no longer resolves does not merely skip
its own entry: `getFormattedOutput` accesses properties of the `null`
returned by `getAbstractFileByPath` (src/src/main.ts:257-261), the
throw escapes the `map` inside the `splice` call, and `vault.modify` is
never reached — even though the other tracked path would have rendered
fine.  The document write does not complete. -/
theorem updateTrackedFilesWrite_stale_skips_whole_write :
    updateTrackedFilesWrite demoVault "[[name]]" (some [⟨"H", 0, 0⟩, ⟨"H2", 2, 2⟩]) "H"
      ["# H", "x", "# H2"] ["gone.md", "a.md"] = none ∧
    finalWriteDocument demoVault "[[name]]" (some [⟨"H", 0, 0⟩, ⟨"H2", 2, 2⟩]) "H"
      ["# H", "x", "# H2"] ["gone.md", "a.md"] = ["# H", "x", "# H2"] ∧
    getFormattedOutput demoVault "[[name]]" "a.md" = some "A" := by decide

/-- C4 (amended).  If any tracked path fails to resolve, rendering
throws instead of reporting and skipping: the whole entry list renders
to nothing, no document write happens for any heading configuration,
and the document is left unchanged. -/
theorem updateTrackedFiles_aborts_on_stale_path :
    ∀ (vault : String → Option FileInfo) (outputFormat : String)
        (trackedFiles : List String) (p : String),
      p ∈ trackedFiles → vault p = none →
        renderEntries vault outputFormat trackedFiles = none ∧
        ∀ (headings : Option (List HeadingCache)) (headingSetting : String)
            (content : List String),
          updateTrackedFilesWrite vault outputFormat headings headingSetting
            content trackedFiles = none ∧
          finalWriteDocument vault outputFormat headings headingSetting
            content trackedFiles = content := by
  intro vault outputFormat trackedFiles p hp hv
  refine ⟨renderEntries_none_of_stale vault outputFormat trackedFiles p hp hv, ?_⟩
  intro headings headingSetting content
  have hw : updateTrackedFilesWrite vault outputFormat headings headingSetting
      content trackedFiles = none := by
    cases headings with
    | none => rfl
    | some hs =>
      simp only [updateTrackedFilesWrite]
      split_ifs with h
      · rfl
      · exact spliceRender_none_of_stale vault outputFormat headingSetting
          trackedFiles content p hp hv hs
  refine ⟨hw, ?_⟩
  rw [finalWriteDocument, hw]
  rfl

/-- Closed instance of the amended C4 theorem. -/
theorem updateTrackedFiles_aborts_on_stale_path_witness :
    ("gone.md" : String) ∈ (["gone.md", "a.md"] : List String) ∧
    demoVault "gone.md" = none ∧
    renderEntries demoVault "- [[name]]" ["gone.md", "a.md"] = none ∧
    updateTrackedFilesWrite demoVault "- [[name]]" (some [⟨"M", 0, 0⟩]) "M" ["# M"]
      ["gone.md", "a.md"] = none ∧
    finalWriteDocument demoVault "- [[name]]" (some [⟨"M", 0, 0⟩]) "M" ["# M"]
      ["gone.md", "a.md"] = ["# M"] :=
  ⟨by decide, by decide,
    (updateTrackedFiles_aborts_on_stale_path demoVault "- [[name]]" ["gone.md", "a.md"]
      "gone.md" (by decide) (by decide)).1,
    ((updateTrackedFiles_aborts_on_stale_path demoVault "- [[name]]" ["gone.md", "a.md"]
      "gone.md" (by decide) (by decide)).2 (some [⟨"M", 0, 0⟩]) "M" ["# M"]).1,
    ((updateTrackedFiles_aborts_on_stale_path demoVault "- [[name]]" ["gone.md", "a.md"]
      "gone.md" (by decide) (by decide)).2 (some [⟨"M", 0, 0⟩]) "M" ["# M"]).2⟩

/-- C5.  The system creates a file other than the backup: when the
daily note does not resolve and auto-creation is enabled, the daily
note itself is created (src/src/main.ts:200-203) — and its path is not
the backup name, which is the folder setting, the formatted date and
`-BACKUP.md` concatenated without a separator (src/src/main.ts:180-183). -/
theorem autocreate_creates_non_backup_file :
    (updateTrackedFilesBackup true false true "Daily" "2026-10-11"
        "Daily/2026-10-11.md").1 = ["Daily/2026-10-11.md"] ∧
    ("Daily/2026-10-11.md" : String) ≠ "Daily" ++ "2026-10-11" ++ "-BACKUP.md" := by
  decide

theorem backupRuns_flag_true_no_backup (folder dateFormatted dailyNotePath : String)
    (hne : dailyNotePath ≠ folder ++ dateFormatted ++ "-BACKUP.md") :
    ∀ runs : List (Bool × Bool),
      (backupRuns folder dateFormatted dailyNotePath true runs).1.count
        (folder ++ dateFormatted ++ "-BACKUP.md") = 0 := by
  intro runs
  induction runs with
  | nil => simp [backupRuns]
  | cons r rest ih =>
    obtain ⟨res, auto⟩ := r
    simp only [backupRuns, updateTrackedFilesBackup]
    split_ifs with h1 h2 <;>
      simp_all [List.count_append, List.count_cons, Ne.symm hne]

/-- C5 (amended).  A run in which the daily note resolves and
`hasBeenBackedUp` is still false creates exactly one file, the backup
at `folder ++ formattedDate ++ "-BACKUP.md"` (the daily-note folder and
formatted date concatenated directly — not `<daily-note-path>-BACKUP.md`),
and sets the flag to true; once the flag is true no run ever creates a
backup again, and across any sequence of runs at most one backup is
created.  Besides the backup, the only file the system creates is the
daily note itself, when it does not resolve and auto-creation is
enabled. -/
theorem backup_at_most_once :
    (∀ (autoCreate : Bool) (folder dateFormatted dailyNotePath : String),
      updateTrackedFilesBackup false true autoCreate folder dateFormatted dailyNotePath
        = ([folder ++ dateFormatted ++ "-BACKUP.md"], true)) ∧
    (∀ (resolves autoCreate : Bool) (folder dateFormatted dailyNotePath : String),
      dailyNotePath ≠ folder ++ dateFormatted ++ "-BACKUP.md" →
        (folder ++ dateFormatted ++ "-BACKUP.md")
          ∉ (updateTrackedFilesBackup true resolves autoCreate folder dateFormatted
              dailyNotePath).1 ∧
        (updateTrackedFilesBackup true resolves autoCreate folder dateFormatted
          dailyNotePath).2 = true) ∧
    (∀ (flag : Bool) (runs : List (Bool × Bool))
        (folder dateFormatted dailyNotePath : String),
      dailyNotePath ≠ folder ++ dateFormatted ++ "-BACKUP.md" →
        (backupRuns folder dateFormatted dailyNotePath flag runs).1.count
          (folder ++ dateFormatted ++ "-BACKUP.md") ≤ 1) := by
  refine ⟨?_, ?_, ?_⟩
  · intro autoCreate folder dateFormatted dailyNotePath
    simp [updateTrackedFilesBackup]
  · intro resolves autoCreate folder dateFormatted dailyNotePath hne
    constructor
    · simp only [updateTrackedFilesBackup]
      split_ifs with h1 h2 <;> simp_all [Ne.symm hne]
    · simp only [updateTrackedFilesBackup]
      split_ifs <;> rfl
  · intro flag runs folder dateFormatted dailyNotePath hne
    induction runs generalizing flag with
    | nil => simp [backupRuns]
    | cons r rest ih =>
      obtain ⟨res, auto⟩ := r
      cases flag with
      | true =>
        rw [backupRuns_flag_true_no_backup folder dateFormatted dailyNotePath hne]
        omega
      | false =>
        cases res with
        | true =>
          have hstep : updateTrackedFilesBackup false true auto folder dateFormatted
              dailyNotePath = ([folder ++ dateFormatted ++ "-BACKUP.md"], true) := by
            simp [updateTrackedFilesBackup]
          simp only [backupRuns, hstep, List.count_append]
          rw [backupRuns_flag_true_no_backup folder dateFormatted dailyNotePath hne]
          simp [List.count_cons]
        | false =>
          have hstep : updateTrackedFilesBackup false false auto folder dateFormatted
              dailyNotePath
              = ((if auto = true then [dailyNotePath] else []), false) := by
            simp only [updateTrackedFilesBackup]
            split_ifs <;> simp_all
          simp only [backupRuns, hstep, List.count_append]
          have hc2 : (if auto = true then [dailyNotePath] else []).count
              (folder ++ dateFormatted ++ "-BACKUP.md") = 0 := by
            split_ifs <;> simp [List.count_cons, Ne.symm hne]
          rw [hc2]
          simpa using ih false

/-- Closed instance of the amended C5 theorem: one qualifying run
creates exactly the backup; with the flag already set, no backup is
created; and a three-run sequence starting with the flag unset creates
at most one backup. -/
theorem backup_at_most_once_witness :
    updateTrackedFilesBackup false true false "Daily" "2026-10-11" "Daily/2026-10-11.md"
      = (["Daily" ++ "2026-10-11" ++ "-BACKUP.md"], true) ∧
    (("Daily/2026-10-11.md" : String) ≠ "Daily" ++ "2026-10-11" ++ "-BACKUP.md" ∧
      ("Daily" ++ "2026-10-11" ++ "-BACKUP.md")
        ∉ (updateTrackedFilesBackup true true false "Daily" "2026-10-11"
            "Daily/2026-10-11.md").1 ∧
      (backupRuns "Daily" "2026-10-11" "Daily/2026-10-11.md" false
          [(true, false), (true, false), (false, true)]).1.count
        ("Daily" ++ "2026-10-11" ++ "-BACKUP.md") ≤ 1) :=
  ⟨backup_at_most_once.1 false "Daily" "2026-10-11" "Daily/2026-10-11.md",
    ⟨by decide,
      (backup_at_most_once.2.1 true false "Daily" "2026-10-11" "Daily/2026-10-11.md"
        (by decide)).1,
      backup_at_most_once.2.2 false [(true, false), (true, false), (false, true)]
        "Daily" "2026-10-11" "Daily/2026-10-11.md" (by decide)⟩⟩

end ListModified
